import Mathlib

/-!
Verification of the BROS CLI orchestrator (`brocode.py`).

A shallow embedding, in Lean 4, of the manifest-resolution, build-orchestration
and launch-orchestration logic of `src/brocode_cli/brocode.py`, together with
theorems settling the specification claims about it.

DirPath convention:

Directories are modelled leaf-first: a `DirPath` is the list of directory
components from the innermost directory outward, so the filesystem root is
`[]`, `os.path.dirname p` is `p.tail`, and `os.path.join p f` (for a file
name `f`) is `f :: p`.  A path `a` is an ancestor-or-self of `p` exactly when
`∃ s, s ++ a = p`.  A filesystem is the list of file paths that exist
(`os.path.exists`).
-/

abbrev DirPath := List String

/-- The constant `BROS_WORKSPACE_CONFIG_FILE` in `brocode.py`. -/
def brosWorkspaceConfigFile : String := ".bros_workspace.yaml"

/-- The constant `BROS_PROJECT_MANIFEST_FILE` in `brocode.py`. -/
def brosProjectManifestFile : String := "package.yaml"

/-- The set of files that exist on disk, as `os.path.exists` sees them. -/
structure FS where
  files : List DirPath
deriving Repr

/-- The check `os.path.exists p` against the modelled filesystem. -/
def FS.hasFile (fs : FS) (p : DirPath) : Bool := decide (p ∈ fs.files)

/-- The inner `while` loop of `_find_project_root` (lines 26–33): starting
from `temp_path`, walk parent directories looking for the workspace-marker
file; stop (returning false) once the parent of the current directory equals
the current directory, i.e. at the filesystem root. -/
def findWorkspaceUp (fs : FS) : DirPath → Bool
  | [] => fs.hasFile [brosWorkspaceConfigFile]
  | c :: rest => fs.hasFile (brosWorkspaceConfigFile :: c :: rest) || findWorkspaceUp fs rest

/-- The function `_find_project_root` (lines 15–40 of `brocode.py`): walk ancestors of the
start directory looking for `package.yaml`; on the first hit, additionally
re-walk upward from that directory looking for `.bros_workspace.yaml`, and
return the project root and manifest path only if the workspace marker is
found; a manifest outside any workspace, or no manifest at all, yields
`(None, None)`, modelled as `none`. -/
def findProjectRoot (fs : FS) : DirPath → Option (DirPath × DirPath)
  | [] =>
    if fs.hasFile [brosProjectManifestFile] then
      if findWorkspaceUp fs [] then some ([], [brosProjectManifestFile]) else none
    else none
  | c :: rest =>
    if fs.hasFile (brosProjectManifestFile :: c :: rest) then
      if findWorkspaceUp fs (c :: rest) then
        some (c :: rest, brosProjectManifestFile :: c :: rest)
      else none
    else findProjectRoot fs rest

/-- Holds when `a` is an ancestor-or-self of `p` (leaf-first convention). -/
def ancestorOf (a p : DirPath) : Prop := ∃ s, s ++ a = p

/-! ## Project registration (`create_project`, lines 100–172)

The state a `create_project` call reads and writes: which project directories
`src/<name>` exist, and the `projects` list of the workspace config. -/

/-- The workspace-level state touched by `create_project`. -/
structure WsState where
  /-- Names `n` such that the directory `src/<n>` exists in the workspace. -/
  projectDirs : List String
  /-- The `projects` list stored in `.bros_workspace.yaml`. -/
  projects : List String
deriving Repr, DecidableEq

/-- The user-visible outcome of a `create_project` call. -/
inductive CreateProjectOutcome where
  /-- Line 120: `Error: Project directory ... already exists`; early return. -/
  | errorDirAlreadyExists
  /-- Project scaffolded and its name appended to the workspace config (line 154). -/
  | createdAndRegistered
  /-- Project scaffolded; name already listed, config untouched (line 160). -/
  | createdAlreadyListed
deriving Repr, DecidableEq

/-- Lines 153–157 of `create_project`: append `name` to the config's
`projects` list only when it is not already present.  Returns the new list
and whether an append happened (line 158 vs. the line-160 "already listed"
log, which is not an error). -/
def registerProject (projects : List String) (name : String) : List String × Bool :=
  if name ∈ projects then (projects, false) else (projects ++ [name], true)

/-- The function `create_project` (lines 100–172), at the level of the state it mutates:
if the project directory already exists the call errors out before touching
the config (lines 119–122); otherwise it creates the directory and registers
the name idempotently (lines 124–160). -/
def create_project (s : WsState) (name : String) : WsState × CreateProjectOutcome :=
  if name ∈ s.projectDirs then
    (s, .errorDirAlreadyExists)
  else
    let (ps, appended) := registerProject s.projects name
    (⟨name :: s.projectDirs, ps⟩,
     if appended then .createdAndRegistered else .createdAlreadyListed)

/-! ## Node scaffolding (`create_node`, lines 175–412) -/

/-- The project-level state touched by `create_node`. -/
structure ProjState where
  /-- Node names `n` such that `nodes/<n>_node.bend` exists. -/
  nodeFiles : List String
  /-- The `executables` list stored in the project's `package.yaml`. -/
  executables : List String
deriving Repr, DecidableEq

/-- The user-visible outcome of a `create_node` call. -/
inductive CreateNodeOutcome where
  /-- Line 218: `Error: Node file ... already exists`; early return. -/
  | errorNodeFileExists
  /-- Node file written and executable name appended to the manifest (line 397). -/
  | createdAndRegistered
  /-- Node file written; executable already listed, manifest untouched (line 403). -/
  | createdAlreadyListed
deriving Repr, DecidableEq

/-- Lines 391–400 of `create_node`: append `exe` to the manifest's
`executables` list only when it is not already present. -/
def registerExecutable (executables : List String) (exe : String) : List String × Bool :=
  if exe ∈ executables then (executables, false) else (executables ++ [exe], true)

/-- The function `create_node` (lines 175–412), at the level of the project state it
mutates: if the node file already exists the call errors out before touching
the manifest (lines 217–220); otherwise it writes the stub and registers
`<name>_node` idempotently (lines 384–403). -/
def create_node (s : ProjState) (nodeName : String) : ProjState × CreateNodeOutcome :=
  if nodeName ∈ s.nodeFiles then
    (s, .errorNodeFileExists)
  else
    let (exes, appended) := registerExecutable s.executables (nodeName ++ "_node")
    (⟨nodeName :: s.nodeFiles, exes⟩,
     if appended then .createdAndRegistered else .createdAlreadyListed)

/-! ## Build orchestration (`build_projects`, lines 415–519)

The workspace view `build_projects` reads: the config's project list, each
project's manifest (absent when the `package.yaml` file is missing), and
which node source files `src/<proj>/nodes/<exe>.bend` exist. -/

/-- The workspace view consumed by `build_projects`. -/
structure Workspace where
  /-- The `projects` list of `.bros_workspace.yaml`. -/
  projects : List String
  /-- Project name ↦ `executables` list of its `package.yaml`; a name with no
  entry models a missing manifest file (line 454). -/
  manifests : List (String × List String)
  /-- Pairs `(proj, exe)` such that `src/<proj>/nodes/<exe>.bend` exists
  (line 474). -/
  sources : List (String × String)
deriving Repr

/-- One line of the build log, per project or per node. -/
inductive BuildEvent where
  /-- Line 455: project manifest not found; skip project. -/
  | danglingProject (proj : String)
  /-- Line 465: no executables defined in the project; nothing to build. -/
  | noExecutables (proj : String)
  /-- Line 491: node compiled, build and install artifacts written. -/
  | built (proj exe : String)
  /-- Line 495: node source file not found; skip node. -/
  | sourceMissing (proj exe : String)
deriving Repr, DecidableEq

/-- The aggregate outcome of a `build_projects` run. -/
structure BuildReport where
  /-- The per-project / per-node log lines, in attempt order. -/
  events : List BuildEvent
  /-- The `overall_success` flag printed in the summary (lines 502–508). -/
  overallSuccess : Bool
  /-- Executable names written under `build/` (line 480). -/
  buildArtifacts : List String
  /-- Executable names copied under `install/` (line 488). -/
  installArtifacts : List String
deriving Repr, DecidableEq

/-- Lines 468–496: the per-executable loop body.  A node whose `.bend` source
exists gets a build artifact and an install copy; a missing source logs an
error and clears `overall_success`, without stopping the loop. -/
def buildNode (ws : Workspace) (proj exe : String) : BuildEvent × Bool × List String × List String :=
  if (proj, exe) ∈ ws.sources then (.built proj exe, true, [exe], [exe])
  else (.sourceMissing proj exe, false, [], [])

/-- The `for executable_name in executables` loop (lines 468–496), folded
over a project's executables list. -/
def buildExecutables (ws : Workspace) (proj : String) :
    List String → List BuildEvent × Bool × List String × List String
  | [] => ([], true, [], [])
  | e :: es =>
    let (ev, ok, b, i) := buildNode ws proj e
    let (evs, oks, bs, ins) := buildExecutables ws proj es
    (ev :: evs, ok && oks, b ++ bs, i ++ ins)

/-- Lines 450–496: the per-project loop body.  A project with no manifest
logs a dangling-project error and clears `overall_success`; a project whose
manifest lists no executables is skipped with nothing to build (and does not
clear the flag); otherwise every listed executable is attempted. -/
def buildProject (ws : Workspace) (proj : String) :
    List BuildEvent × Bool × List String × List String :=
  match List.lookup proj ws.manifests with
  | none => ([.danglingProject proj], false, [], [])
  | some exes =>
    if exes = [] then ([.noExecutables proj], true, [], [])
    else buildExecutables ws proj exes

/-- The `for project_name in projects` loop (lines 449–500), folded over the
workspace's project list. -/
def buildAll (ws : Workspace) : List String → List BuildEvent × Bool × List String × List String
  | [] => ([], true, [], [])
  | p :: ps =>
    let (evs, ok, bs, ins) := buildProject ws p
    let (evs2, ok2, bs2, ins2) := buildAll ws ps
    (evs ++ evs2, ok && ok2, bs ++ bs2, ins ++ ins2)

/-- The function `build_projects` (lines 415–519): with an empty project list the command
returns early with no build report (lines 437–440, modelled as `none`);
otherwise every project is attempted and a summary report produced. -/
def build_projects (ws : Workspace) : Option BuildReport :=
  if ws.projects = [] then none
  else
    let (evs, ok, bs, ins) := buildAll ws ws.projects
    some ⟨evs, ok, bs, ins⟩

/-- The nodes a workspace declares: every `(proj, exe)` pair reachable from
the config's project list through an existing manifest's executables list. -/
def declaredNodes (ws : Workspace) : List (String × String) :=
  ws.projects.flatMap fun p => ((List.lookup p ws.manifests).getD []).map fun e => (p, e)

/-- The nodes declared by an arbitrary project-name list, for reasoning about
the build fold one project at a time; `declaredNodes ws` is this at
`ws.projects`. -/
def nodesOfProjects (ws : Workspace) (ps : List String) : List (String × String) :=
  ps.flatMap fun p => ((List.lookup p ws.manifests).getD []).map fun e => (p, e)

/-! ## Launch orchestration (`launch_nodes`, lines 522–617) -/

/-- One entry of the launch specification's node list (lines 561–575): the
values of the `node`, `from` and `executable` keys, each absent (`none`) when
the key is missing, plus the optional `args`.  Python's `all([...])` check
treats an empty string like a missing key, so presence and non-emptiness are
both significant. -/
structure LaunchEntry where
  node : Option String
  fromProject : Option String
  executable : Option String
  args : List String
deriving Repr, DecidableEq

/-- Python truthiness of an optional string: `None` and `""` are falsy. -/
def truthy : Option String → Bool
  | none => false
  | some s => !(s == "")

/-- Line 577: `all([node_name_in_launch, project_name, executable_name])`. -/
def mandatoryFieldsOk (e : LaunchEntry) : Bool :=
  truthy e.node && truthy e.fromProject && truthy e.executable

/-- One line of the launch log, per entry. -/
inductive LaunchEvent where
  /-- Line 578: malformed entry, a mandatory key missing; skip. -/
  | malformedEntry
  /-- Line 585: executable not found under `install/`; skip. -/
  | artifactNotFound (exe : String)
  /-- Lines 588–598: node launched (simulated) and its alias recorded. -/
  | launched (nodeAlias exe proj : String)
deriving Repr, DecidableEq

/-- Lines 570–599: the per-entry loop body.  Returns the log line and, when
the entry launched, the alias appended to `launched_nodes`.  `installed` is
the set of executable names present under `install/` (line 584). -/
def launchEntry (installed : List String) (e : LaunchEntry) : LaunchEvent × Option String :=
  if mandatoryFieldsOk e then
    let exe := e.executable.getD ""
    if exe ∈ installed then
      (.launched (e.node.getD "") exe (e.fromProject.getD ""), some (e.node.getD ""))
    else (.artifactNotFound exe, none)
  else (.malformedEntry, none)

/-- The `for node_config in nodes_to_launch` loop (lines 561–599), folded
over the entry list; returns the log and the `launched_nodes` list. -/
def launchAll (installed : List String) : List LaunchEntry → List LaunchEvent × List String
  | [] => ([], [])
  | e :: es =>
    let (ev, l) := launchEntry installed e
    let (evs, ls) := launchAll installed es
    (ev :: evs, l.toList ++ ls)

/-- The final outcome a launch run reports. -/
inductive LaunchOutcome where
  /-- Line 602: `All specified nodes launched successfully!`. -/
  | success
  /-- Line 605: `No nodes were launched due to errors or empty launch
  configuration.` -/
  | nothingLaunched
deriving Repr, DecidableEq

/-- The function `launch_nodes` (lines 522–617), from the parsed entry list on: an empty
node list returns early with no outcome (lines 552–554, modelled as `none`);
otherwise every entry is processed in order and the run ends with `success`
exactly when `launched_nodes` is non-empty (lines 601–606). -/
def launch_nodes (installed : List String) (entries : List LaunchEntry) :
    Option (List LaunchEvent × List String × LaunchOutcome) :=
  if entries = [] then none
  else
    let (evs, ls) := launchAll installed entries
    some (evs, ls, if ls = [] then .nothingLaunched else .success)

/-! ## Working-directory discipline (claim-C7 material)

The operations below run with the process working directory threaded
explicitly: `os.chdir` replaces it, and a `try/finally` restore is an
explicit final `osChdir` back to the saved `original_cwd`.  In
`create_workspace` the `finally` block (lines 96–97) is `pass`, so no
restoring `osChdir` appears there. -/

/-- The effect of `os.chdir target` on the working directory. -/
def osChdir (_current target : DirPath) : DirPath := target

/-- The function `create_workspace` (lines 55–97), at the level of the
working directory and directory set it mutates: if the target directory
already exists the call errors out without any `chdir` (lines 63–66);
otherwise it creates the workspace directory, `os.chdir`s into it (line 69),
creates the core subdirectories and the config file, and returns with the
`finally: pass` block (lines 96–97) leaving the working directory inside the
new workspace.  The returned flag is true on the success path. -/
def create_workspace (cwd : DirPath) (dirs : List DirPath) (name : String) :
    (DirPath × List DirPath) × Bool :=
  if (name :: cwd) ∈ dirs then ((cwd, dirs), false)
  else
    let wsRoot := name :: cwd
    let cwd1 := osChdir cwd wsRoot
    let dirs1 := (["src", "build", "install", "log"].map (· :: wsRoot)) ++ wsRoot :: dirs
    ((cwd1, dirs1), true)

/-- The function `create_project` with its working-directory discipline
(lines 112–113 and 172): save `original_cwd`, `chdir` to the workspace root,
run the body — whichever branch it takes — and `chdir` back in `finally`. -/
def create_project_cwd (wsRoot cwd : DirPath) (s : WsState) (name : String) :
    DirPath × WsState × CreateProjectOutcome :=
  let originalCwd := cwd
  let cwd1 := osChdir cwd wsRoot
  let (s2, out) := create_project s name
  (osChdir cwd1 originalCwd, s2, out)

/-- The function `build_projects` with its working-directory discipline
(lines 429–430 and 519): save `original_cwd`, `chdir` to the workspace root,
run the build pass — whatever it reports — and `chdir` back in `finally`. -/
def build_projects_cwd (wsRoot cwd : DirPath) (ws : Workspace) :
    DirPath × Option BuildReport :=
  let originalCwd := cwd
  let cwd1 := osChdir cwd wsRoot
  let r := build_projects ws
  (osChdir cwd1 originalCwd, r)

/-- The function `launch_nodes` with its working-directory discipline
(lines 535–536 and 617): save `original_cwd`, `chdir` to the workspace root,
run the launch pass — whatever it reports — and `chdir` back in `finally`. -/
def launch_nodes_cwd (wsRoot cwd : DirPath) (installed : List String)
    (entries : List LaunchEntry) :
    DirPath × Option (List LaunchEvent × List String × LaunchOutcome) :=
  let originalCwd := cwd
  let cwd1 := osChdir cwd wsRoot
  let r := launch_nodes installed entries
  (osChdir cwd1 originalCwd, r)

/-! ## Manifest-write observability (claim-C9 material) -/

/-- The sequence of on-disk contents an observer of the manifest file can see
(as character sequences) during the in-place rewrite the code performs — `open(path, "r+")`,
`yaml.safe_load`, `seek(0)`, `yaml.dump` into the same handle, `truncate()`
(lines 151–157 and 389–400): the old document; then, between the write and
the truncate, the new document over-laid on the start of the old one, with
the old document's tail still present beyond the new document's length; then
the truncated final content. -/
def inPlaceRewriteStates (old new : List Char) : List (List Char) :=
  [old, new ++ old.drop new.length, new]

/-- Modelled from the spec: the write-then-replace discipline the
specification ascribes to `writeWorkspaceManifest` — the new document is
written to the side and moved over the old in one replacement step, so the
manifest path only ever shows the complete old or the complete new
document.  Stated here for comparison; the repository contains no such
writer. -/
def writeThenReplaceStates (old new : List Char) : List (List Char) := [old, new]

/-- Atomic observability of a write: every on-disk state an observer can see
is either the complete old document or the complete new one. -/
def atomicObservable (states : List (List Char)) (old new : List Char) : Prop :=
  ∀ s ∈ states, s = old ∨ s = new

/-! ## Helper lemmas -/

/-- Unfolding equation for `findWorkspaceUp`, uniform in the path's shape. -/
theorem findWorkspaceUp_eq (fs : FS) (p : DirPath) :
    findWorkspaceUp fs p =
      (fs.hasFile (brosWorkspaceConfigFile :: p) ||
        match p with
        | [] => false
        | _ :: rest => findWorkspaceUp fs rest) := by
  cases p with
  | nil => simp [findWorkspaceUp]
  | cons c rest => rfl

/-- Unfolding equation for `findProjectRoot`, uniform in the path's shape. -/
theorem findProjectRoot_eq (fs : FS) (p : DirPath) :
    findProjectRoot fs p =
      if fs.hasFile (brosProjectManifestFile :: p) then
        if findWorkspaceUp fs p then some (p, brosProjectManifestFile :: p) else none
      else
        match p with
        | [] => none
        | _ :: rest => findProjectRoot fs rest := by
  cases p with
  | nil => rfl
  | cons c rest => rfl

/-- If some ancestor-or-self of `p` holds the workspace marker, the upward
marker walk succeeds from `p`. -/
theorem findWorkspaceUp_of_marker (fs : FS) (a : DirPath) :
    ∀ p, ancestorOf a p → fs.hasFile (brosWorkspaceConfigFile :: a) = true →
      findWorkspaceUp fs p = true := by
  intro p
  induction p with
  | nil =>
    rintro ⟨s, hs⟩ hm
    have ha : a = [] := by
      have := List.append_eq_nil.mp hs
      exact this.2
    subst ha
    simpa [findWorkspaceUp] using hm
  | cons c rest ih =>
    rintro ⟨s, hs⟩ hm
    cases s with
    | nil =>
      simp only [List.nil_append] at hs
      subst hs
      simp [findWorkspaceUp, hm]
    | cons c' s' =>
      simp only [List.cons_append, List.cons.injEq] at hs
      obtain ⟨rfl, hs'⟩ := hs
      have := ih ⟨s', hs'⟩ hm
      simp [findWorkspaceUp, this]

/-- If no ancestor-or-self of `p` holds the workspace marker, the upward
marker walk fails from `p`. -/
theorem findWorkspaceUp_of_no_marker (fs : FS) :
    ∀ p, (∀ a, ancestorOf a p → fs.hasFile (brosWorkspaceConfigFile :: a) = false) →
      findWorkspaceUp fs p = false := by
  intro p
  induction p with
  | nil =>
    intro h
    have := h [] ⟨[], rfl⟩
    simpa [findWorkspaceUp] using this
  | cons c rest ih =>
    intro h
    have h1 : fs.hasFile (brosWorkspaceConfigFile :: c :: rest) = false :=
      h (c :: rest) ⟨[], rfl⟩
    have h2 : findWorkspaceUp fs rest = false := by
      apply ih
      intro a ⟨s, hs⟩
      exact h a ⟨c :: s, by simp [hs]⟩
    simp [findWorkspaceUp, h1, h2]

/-- Resolution from inside a project: starting anywhere below a
manifest-bearing directory that sits inside a workspace, with no nearer
manifest on the way up, the walk lands on that directory. -/
theorem findProjectRoot_descendant (fs : FS) (P : DirPath)
    (hm : fs.hasFile (brosProjectManifestFile :: P) = true)
    (hw : ∃ a, ancestorOf a P ∧ fs.hasFile (brosWorkspaceConfigFile :: a) = true) :
    ∀ s, (∀ t, t ≠ [] → (∃ u, u ++ t = s) →
        fs.hasFile (brosProjectManifestFile :: (t ++ P)) = false) →
      findProjectRoot fs (s ++ P) = some (P, brosProjectManifestFile :: P) := by
  intro s
  induction s with
  | nil =>
    intro _
    rw [List.nil_append, findProjectRoot_eq]
    obtain ⟨a, ha, hma⟩ := hw
    simp [hm, findWorkspaceUp_of_marker fs a P ha hma]
  | cons c s' ih =>
    intro hnear
    have hP : (c :: s') ++ P = c :: (s' ++ P) := rfl
    rw [hP, findProjectRoot_eq]
    have h1 : fs.hasFile (brosProjectManifestFile :: c :: (s' ++ P)) = false := by
      have := hnear (c :: s') (by simp) ⟨[], rfl⟩
      simpa using this
    simp only [h1, Bool.false_eq_true, if_false]
    exact ih fun t ht ⟨u, hu⟩ => hnear t ht ⟨c :: u, by simp [hu]⟩

/-- Resolution outside any workspace: when no ancestor-or-self of the start
directory carries the workspace marker, the walk returns `(None, None)`, no
matter which manifests exist along the way. -/
theorem findProjectRoot_outside (fs : FS) :
    ∀ D, (∀ a, ancestorOf a D → fs.hasFile (brosWorkspaceConfigFile :: a) = false) →
      findProjectRoot fs D = none := by
  intro D
  induction D with
  | nil =>
    intro h
    rw [findProjectRoot_eq]
    have hw := findWorkspaceUp_of_no_marker fs [] h
    cases hpk : fs.hasFile (brosProjectManifestFile :: ([] : DirPath)) <;> simp [hpk, hw]
  | cons c rest ih =>
    intro h
    rw [findProjectRoot_eq]
    have hw := findWorkspaceUp_of_no_marker fs (c :: rest) h
    have hrest := ih fun a ⟨s, hs⟩ => h a ⟨c :: s, by simp [hs]⟩
    cases hpk : fs.hasFile (brosProjectManifestFile :: c :: rest) <;> simp [hpk, hw, hrest]

/-- Resolution with no manifest anywhere above: both upward walks run off the
filesystem root and the function returns `(None, None)`. -/
theorem findProjectRoot_no_manifest (fs : FS) :
    ∀ D, (∀ a, ancestorOf a D → fs.hasFile (brosProjectManifestFile :: a) = false) →
      findProjectRoot fs D = none := by
  intro D
  induction D with
  | nil =>
    intro h
    rw [findProjectRoot_eq]
    simp [h [] ⟨[], rfl⟩]
  | cons c rest ih =>
    intro h
    rw [findProjectRoot_eq]
    have h1 := h (c :: rest) ⟨[], rfl⟩
    have hrest := ih fun a ⟨s, hs⟩ => h a ⟨c :: s, by simp [hs]⟩
    simp [h1, hrest]

/-- C3: for every start directory that descends from a project directory
inside a workspace (the project directory being the nearest manifest-bearing
directory on the way up), `_find_project_root` returns that project's root
and manifest path; for a start directory with no workspace marker anywhere
above it, it returns `(None, None)` even when `package.yaml`-shaped files
exist at or above the start directory; and when both upward walks reach the
filesystem root without a manifest it returns `(None, None)` rather than
raising. -/
theorem C3_project_root_resolution (fs : FS) (D : DirPath) :
    (∀ P s, s ++ P = D →
        fs.hasFile (brosProjectManifestFile :: P) = true →
        (∃ a, ancestorOf a P ∧ fs.hasFile (brosWorkspaceConfigFile :: a) = true) →
        (∀ t, t ≠ [] → (∃ u, u ++ t = s) →
            fs.hasFile (brosProjectManifestFile :: (t ++ P)) = false) →
        findProjectRoot fs D = some (P, brosProjectManifestFile :: P))
    ∧ ((∀ a, ancestorOf a D → fs.hasFile (brosWorkspaceConfigFile :: a) = false) →
        findProjectRoot fs D = none)
    ∧ ((∀ a, ancestorOf a D → fs.hasFile (brosProjectManifestFile :: a) = false) →
        findProjectRoot fs D = none) := by
  refine ⟨?_, findProjectRoot_outside fs D, findProjectRoot_no_manifest fs D⟩
  rintro P s rfl hm hw hnear
  exact findProjectRoot_descendant fs P hm hw s hnear

/-- Witness for C3: a workspace `rover_ws` containing project `nav`, resolved
from the project's `launch` subdirectory; a stray manifest with no workspace
above it; and a directory with no manifest anywhere above it. -/
theorem C3_project_root_resolution_witness :
    findProjectRoot
        ⟨[[brosWorkspaceConfigFile, "rover_ws"],
          [brosProjectManifestFile, "nav", "src", "rover_ws"]]⟩
        ["launch", "nav", "src", "rover_ws"]
      = some (["nav", "src", "rover_ws"],
              [brosProjectManifestFile, "nav", "src", "rover_ws"])
    ∧ findProjectRoot ⟨[[brosProjectManifestFile, "stray"]]⟩ ["stray"] = none
    ∧ findProjectRoot ⟨[]⟩ ["deep", "nowhere"] = none := by
  refine ⟨?_, ?_, ?_⟩
  · refine (C3_project_root_resolution _ _).1 ["nav", "src", "rover_ws"] ["launch"] rfl
      (by decide) ⟨["rover_ws"], ⟨["nav", "src"], rfl⟩, by decide⟩ ?_
    rintro t ht ⟨u, hu⟩
    rcases u with _ | ⟨x, u'⟩
    · simp only [List.nil_append] at hu
      subst hu
      decide
    · rw [List.cons_append] at hu
      injection hu with h1 h2
      have h3 := List.append_eq_nil.mp h2
      exact absurd h3.2 ht
  · refine (C3_project_root_resolution _ _).2.1 ?_
    rintro a ⟨s, hs⟩
    have hmem : (brosWorkspaceConfigFile :: a) ∉ [[brosProjectManifestFile, "stray"]] := by
      intro hmem
      have h := List.mem_singleton.mp hmem
      injection h with h1 _
      exact absurd h1 (by decide)
    simpa [FS.hasFile] using hmem
  · refine (C3_project_root_resolution _ _).2.2 ?_
    rintro a ⟨s, hs⟩
    simp [FS.hasFile]

/-- C1 counterexample: in a fresh workspace, creating project `nav` and then
calling `create_project` a second time with the same name leaves exactly one
occurrence in the config's project list, but the second call IS reported as
an error — `Error: Project directory 'src/nav' already exists` — because the
directory-exists check (lines 119–122) fires before the idempotent config
update is ever reached. -/
theorem C1_counterexample :
    (create_project ((create_project ⟨[], []⟩ "nav").1) "nav").2
        = CreateProjectOutcome.errorDirAlreadyExists
    ∧ ((create_project ((create_project ⟨[], []⟩ "nav").1) "nav").1).projects.count "nav"
        = 1 := by
  constructor <;> rfl

/-- C1 amended: registering the same project name twice leaves the workspace
config's project list with exactly one occurrence of the name and the second
call is a no-op on the state, but the second call is reported as an error
(the project directory already exists); only the config-update step
(lines 149–160) taken by itself is idempotent and non-erroring, answering
"already registered" when the name is present. -/
theorem C1_project_registration_amended (s : WsState) (name : String)
    (hd : name ∉ s.projectDirs) (hp : name ∉ s.projects) :
    (create_project s name).2 = CreateProjectOutcome.createdAndRegistered
    ∧ (create_project (create_project s name).1 name).2
        = CreateProjectOutcome.errorDirAlreadyExists
    ∧ (create_project (create_project s name).1 name).1 = (create_project s name).1
    ∧ ((create_project (create_project s name).1 name).1).projects.count name = 1
    ∧ (∀ l : List String, name ∈ l → registerProject l name = (l, false)) := by
  have h1 : create_project s name
      = (⟨name :: s.projectDirs, s.projects ++ [name]⟩, .createdAndRegistered) := by
    simp [create_project, registerProject, hd, hp]
  have h2 : create_project (⟨name :: s.projectDirs, s.projects ++ [name]⟩ : WsState) name
      = (⟨name :: s.projectDirs, s.projects ++ [name]⟩, .errorDirAlreadyExists) := by
    simp [create_project]
  refine ⟨by rw [h1], by rw [h1, h2], by rw [h1, h2], ?_, ?_⟩
  · rw [h1, h2]
    simp [List.count_append, List.count_eq_zero.mpr hp]
  · intro l hl
    simp [registerProject, hl]

/-- Witness for the amended C1, at a fresh workspace and project `nav`. -/
theorem C1_project_registration_amended_witness :
    (create_project ⟨[], []⟩ "nav").2 = CreateProjectOutcome.createdAndRegistered
    ∧ (create_project (create_project ⟨[], []⟩ "nav").1 "nav").2
        = CreateProjectOutcome.errorDirAlreadyExists
    ∧ (create_project (create_project ⟨[], []⟩ "nav").1 "nav").1
        = (create_project ⟨[], []⟩ "nav").1
    ∧ ((create_project (create_project ⟨[], []⟩ "nav").1 "nav").1).projects.count "nav" = 1
    ∧ (∀ l : List String, "nav" ∈ l → registerProject l "nav" = (l, false)) :=
  C1_project_registration_amended ⟨[], []⟩ "nav" (by decide) (by decide)

/-- C8: scaffolding the same node name twice leaves the project manifest's
executables list with exactly one occurrence of `<name>_node`: the second
call stops at the node-file-exists check and changes nothing, and the
manifest-update step by itself never inserts a duplicate — re-adding an
already-listed executable name is a no-op on the list. -/
theorem C8_executable_registration_idempotent (s : ProjState) (nodeName : String)
    (hf : nodeName ∉ s.nodeFiles) (he : (nodeName ++ "_node") ∉ s.executables) :
    ((create_node (create_node s nodeName).1 nodeName).1).executables.count
        (nodeName ++ "_node") = 1
    ∧ (create_node (create_node s nodeName).1 nodeName).1 = (create_node s nodeName).1
    ∧ (∀ l : List String, (nodeName ++ "_node") ∈ l →
        registerExecutable l (nodeName ++ "_node") = (l, false)) := by
  have h1 : create_node s nodeName
      = (⟨nodeName :: s.nodeFiles, s.executables ++ [nodeName ++ "_node"]⟩,
         .createdAndRegistered) := by
    simp [create_node, registerExecutable, hf, he]
  have h2 : create_node
        (⟨nodeName :: s.nodeFiles, s.executables ++ [nodeName ++ "_node"]⟩ : ProjState)
        nodeName
      = (⟨nodeName :: s.nodeFiles, s.executables ++ [nodeName ++ "_node"]⟩,
         .errorNodeFileExists) := by
    simp [create_node]
  refine ⟨?_, by rw [h1, h2], ?_⟩
  · rw [h1, h2]
    simp [List.count_append, List.count_eq_zero.mpr he]
  · intro l hl
    simp [registerExecutable, hl]

/-- Witness for C8, at a fresh project and node `lidar`. -/
theorem C8_executable_registration_idempotent_witness :
    ((create_node (create_node ⟨[], []⟩ "lidar").1 "lidar").1).executables.count
        "lidar_node" = 1
    ∧ (create_node (create_node ⟨[], []⟩ "lidar").1 "lidar").1
        = (create_node ⟨[], []⟩ "lidar").1
    ∧ (∀ l : List String, "lidar_node" ∈ l →
        registerExecutable l "lidar_node" = (l, false)) :=
  C8_executable_registration_idempotent ⟨[], []⟩ "lidar" (by decide) (by decide)

/-- A general map-all exchange (the library version is type-restricted). -/
theorem all_map_general {α β : Type} (f : α → β) (p : β → Bool) (l : List α) :
    (l.map f).all p = l.all fun a => p (f a) := by
  induction l with
  | nil => rfl
  | cons a l ih => simp [ih]

/-- Characterization of the per-executable build fold: the log is one line
per listed executable, the flag is the conjunction of per-node source
existence, and both artifact lists are the executables whose source exists. -/
theorem buildExecutables_eq (ws : Workspace) (proj : String) (es : List String) :
    buildExecutables ws proj es =
      (es.map fun e => if (proj, e) ∈ ws.sources then BuildEvent.built proj e
          else BuildEvent.sourceMissing proj e,
       es.all fun e => decide ((proj, e) ∈ ws.sources),
       es.filter fun e => decide ((proj, e) ∈ ws.sources),
       es.filter fun e => decide ((proj, e) ∈ ws.sources)) := by
  induction es with
  | nil => rfl
  | cons e es ih =>
    simp only [buildExecutables, buildNode, ih]
    by_cases h : (proj, e) ∈ ws.sources <;> simp [h, List.filter_cons]

/-- When the head projects of the fold all have manifests, the build flag is
the conjunction of source existence over every declared node. -/
theorem buildAll_flag (ws : Workspace) (ps : List String)
    (hman : ∀ p ∈ ps, (List.lookup p ws.manifests).isSome = true) :
    (buildAll ws ps).2.1 = (nodesOfProjects ws ps).all fun q => decide (q ∈ ws.sources) := by
  induction ps with
  | nil => rfl
  | cons p ps ih =>
    obtain ⟨exes, hexes⟩ := Option.isSome_iff_exists.mp (hman p (List.mem_cons_self p ps))
    have ihh := ih fun q hq => hman q (List.mem_cons_of_mem p hq)
    by_cases hnil : exes = []
    · subst hnil
      simp [buildAll, buildProject, hexes, nodesOfProjects, List.flatMap_cons, ihh]
    · simp only [buildAll, buildProject, hexes, if_neg hnil, buildExecutables_eq,
        nodesOfProjects, List.flatMap_cons, List.all_append, ihh, all_map_general]
      rfl

/-- When the projects of the fold all have manifests, both artifact lists are
exactly the executable names of the declared nodes whose source exists. -/
theorem buildAll_artifacts (ws : Workspace) (ps : List String)
    (hman : ∀ p ∈ ps, (List.lookup p ws.manifests).isSome = true) :
    (buildAll ws ps).2.2.1
        = ((nodesOfProjects ws ps).filter fun q => decide (q ∈ ws.sources)).map Prod.snd
    ∧ (buildAll ws ps).2.2.2
        = ((nodesOfProjects ws ps).filter fun q => decide (q ∈ ws.sources)).map Prod.snd := by
  induction ps with
  | nil => exact ⟨rfl, rfl⟩
  | cons p ps ih =>
    obtain ⟨exes, hexes⟩ := Option.isSome_iff_exists.mp (hman p (List.mem_cons_self p ps))
    have ihh := ih fun q hq => hman q (List.mem_cons_of_mem p hq)
    have hmapfilter :
        List.filter (fun q => decide (q ∈ ws.sources)) (exes.map fun e => (p, e))
          = (exes.filter fun e => decide ((p, e) ∈ ws.sources)).map fun e => (p, e) := by
      rw [List.filter_map]
      rfl
    by_cases hnil : exes = []
    · subst hnil
      constructor <;>
        simp [buildAll, buildProject, hexes, nodesOfProjects, List.flatMap_cons, ihh.1, ihh.2]
    · constructor <;>
      · simp only [buildAll, buildProject, hexes, Option.getD_some, if_neg hnil,
          buildExecutables_eq, nodesOfProjects, List.flatMap_cons, List.filter_append,
          List.map_append, ihh.1, ihh.2, hmapfilter, List.map_map]
        simp [Function.comp]

/-- When the projects of the fold all have manifests, every declared node is
attempted: its log line (built, or source missing) is in the build log. -/
theorem buildAll_events_mem (ws : Workspace) (ps : List String)
    (hman : ∀ p ∈ ps, (List.lookup p ws.manifests).isSome = true) :
    ∀ q ∈ nodesOfProjects ws ps,
      (if q ∈ ws.sources then BuildEvent.built q.1 q.2 else BuildEvent.sourceMissing q.1 q.2)
        ∈ (buildAll ws ps).1 := by
  induction ps with
  | nil => intro q hq; simp [nodesOfProjects] at hq
  | cons p ps ih =>
    intro q hq
    obtain ⟨exes, hexes⟩ := Option.isSome_iff_exists.mp (hman p (List.mem_cons_self p ps))
    have ihh := ih fun q' hq' => hman q' (List.mem_cons_of_mem p hq')
    simp only [nodesOfProjects, List.flatMap_cons, hexes, Option.getD_some,
      List.mem_append] at hq
    rcases hq with hq | hq
    · obtain ⟨e, he, rfl⟩ := List.mem_map.mp hq
      have hnil : exes ≠ [] := by rintro rfl; simp at he
      simp only [buildAll, buildProject, hexes, if_neg hnil, buildExecutables_eq,
        List.mem_append]
      left
      exact List.mem_map.mpr ⟨e, he, by by_cases h : (p, e) ∈ ws.sources <;> simp [h]⟩
    · have := ihh q hq
      rcases hba : buildAll ws ps with ⟨evs, rest⟩
      rw [hba] at this
      simp only [buildAll, hba, List.mem_append]
      right
      exact this

/-- Length of a filter that rejects exactly one element of a duplicate-free
list. -/
theorem filter_length_single_fail {α : Type} (l : List α) (x : α) (p : α → Bool)
    (hx : x ∈ l) (hnd : l.Nodup) (hpx : p x = false)
    (hrest : ∀ y ∈ l, y ≠ x → p y = true) :
    (l.filter p).length = l.length - 1 := by
  induction l with
  | nil => cases hx
  | cons a l ih =>
    rcases List.mem_cons.mp hx with rfl | hx'
    · have hall : ∀ y ∈ l, p y = true := by
        intro y hy
        refine hrest y (List.mem_cons_of_mem x hy) ?_
        rintro rfl
        exact (List.nodup_cons.mp hnd).1 hy
      rw [List.filter_cons_of_neg (by simp [hpx]), List.filter_eq_self.mpr hall]
      simp
    · have ha : p a = true := by
        refine hrest a (List.mem_cons_self a l) ?_
        rintro rfl
        exact (List.nodup_cons.mp hnd).1 hx'
      have hlen := ih hx' (List.nodup_cons.mp hnd).2
        (fun y hy hne => hrest y (List.mem_cons_of_mem a hy) hne)
      have hpos := List.length_pos_of_mem hx'
      rw [List.filter_cons_of_pos ha]
      simp only [List.length_cons, hlen]
      omega

/-- A project list whose manifests all declare empty executables lists
declares no nodes at all. -/
theorem nodesOfProjects_nil_of_empty (ws : Workspace) (ps : List String)
    (h : ∀ p ∈ ps, List.lookup p ws.manifests = some []) :
    nodesOfProjects ws ps = [] := by
  induction ps with
  | nil => rfl
  | cons p ps ih =>
    have hp := h p (List.mem_cons_self p ps)
    have ht := ih fun q hq => h q (List.mem_cons_of_mem p hq)
    simp only [nodesOfProjects, List.flatMap_cons, hp, Option.getD_some, List.map_nil,
      List.nil_append]
    simp only [nodesOfProjects] at ht
    exact ht

/-- C2: for every workspace whose registered projects all have manifests and
whose declared nodes are `N` distinct `(project, executable)` pairs of which
exactly one — `q₀` — has no source file, `build_projects` marks that node
failed, reports `overall_success = false`, still writes build and install
artifacts for each of the remaining `N − 1` nodes (and only those), and
attempts every declared node: each one's log line is in the report. -/
theorem C2_build_partial_failure (ws : Workspace) (q₀ : String × String)
    (hman : ∀ p ∈ ws.projects, (List.lookup p ws.manifests).isSome = true)
    (hnd : (declaredNodes ws).Nodup)
    (hq : q₀ ∈ declaredNodes ws)
    (hmiss : q₀ ∉ ws.sources)
    (hrest : ∀ q ∈ declaredNodes ws, q ≠ q₀ → q ∈ ws.sources) :
    ∃ r : BuildReport, build_projects ws = some r
      ∧ r.overallSuccess = false
      ∧ BuildEvent.sourceMissing q₀.1 q₀.2 ∈ r.events
      ∧ (∀ q ∈ declaredNodes ws, q ≠ q₀ →
          q.2 ∈ r.buildArtifacts ∧ q.2 ∈ r.installArtifacts)
      ∧ r.buildArtifacts.length = (declaredNodes ws).length - 1
      ∧ r.installArtifacts.length = (declaredNodes ws).length - 1
      ∧ (∀ q ∈ declaredNodes ws,
          BuildEvent.built q.1 q.2 ∈ r.events ∨ BuildEvent.sourceMissing q.1 q.2 ∈ r.events) := by
  have hdecl : declaredNodes ws = nodesOfProjects ws ws.projects := rfl
  have hne : ws.projects ≠ [] := by
    rintro h
    rw [hdecl] at hq
    rw [h] at hq
    simp [nodesOfProjects] at hq
  rcases hE : buildAll ws ws.projects with ⟨evs, ok, bs, ins⟩
  have hflag := buildAll_flag ws ws.projects hman
  have harts := buildAll_artifacts ws ws.projects hman
  have hevm := buildAll_events_mem ws ws.projects hman
  rw [hE] at hflag harts hevm
  simp only at hflag harts hevm
  rw [← hdecl] at hflag harts hevm
  have hfilter : (declaredNodes ws).filter (fun q => decide (q ∈ ws.sources))
      = (declaredNodes ws).filter fun q => decide (q ∈ ws.sources) := rfl
  have hlen : ((declaredNodes ws).filter fun q => decide (q ∈ ws.sources)).length
      = (declaredNodes ws).length - 1 :=
    filter_length_single_fail (declaredNodes ws) q₀ _ hq hnd (by simp [hmiss])
      (fun y hy hne' => by simpa using hrest y hy hne')
  refine ⟨⟨evs, ok, bs, ins⟩, ?_, ?_, ?_, ?_, ?_, ?_, ?_⟩
  · simp [build_projects, hne, hE]
  · rw [hflag, List.all_eq_false]
    exact ⟨q₀, hq, by simp [hmiss]⟩
  · have := hevm q₀ hq
    rw [if_neg hmiss] at this
    exact this
  · intro q hqd hne'
    have hsrc := hrest q hqd hne'
    have hmem : q ∈ (declaredNodes ws).filter fun q => decide (q ∈ ws.sources) :=
      List.mem_filter.mpr ⟨hqd, by simp [hsrc]⟩
    constructor
    · rw [harts.1]
      exact List.mem_map.mpr ⟨q, hmem, rfl⟩
    · rw [harts.2]
      exact List.mem_map.mpr ⟨q, hmem, rfl⟩
  · rw [harts.1, List.length_map, hlen]
  · rw [harts.2, List.length_map, hlen]
  · intro q hqd
    have := hevm q hqd
    by_cases h : q ∈ ws.sources
    · left; rw [if_pos h] at this; exact this
    · right; rw [if_neg h] at this; exact this

/-- Witness for C2: workspace with projects `nav` (nodes `lidar_node`,
`imu_node`) and `vision` (node `cam_node`), where only `imu_node`'s source is
missing: `N = 3`, one failure, two artifacts. -/
theorem C2_build_partial_failure_witness :
    ∃ r : BuildReport,
      build_projects
          ⟨["nav", "vision"],
           [("nav", ["lidar_node", "imu_node"]), ("vision", ["cam_node"])],
           [("nav", "lidar_node"), ("vision", "cam_node")]⟩ = some r
      ∧ r.overallSuccess = false
      ∧ BuildEvent.sourceMissing "nav" "imu_node" ∈ r.events
      ∧ (∀ q ∈ declaredNodes
            ⟨["nav", "vision"],
             [("nav", ["lidar_node", "imu_node"]), ("vision", ["cam_node"])],
             [("nav", "lidar_node"), ("vision", "cam_node")]⟩,
          q ≠ ("nav", "imu_node") → q.2 ∈ r.buildArtifacts ∧ q.2 ∈ r.installArtifacts)
      ∧ r.buildArtifacts.length = 2
      ∧ r.installArtifacts.length = 2
      ∧ (∀ q ∈ declaredNodes
            ⟨["nav", "vision"],
             [("nav", ["lidar_node", "imu_node"]), ("vision", ["cam_node"])],
             [("nav", "lidar_node"), ("vision", "cam_node")]⟩,
          BuildEvent.built q.1 q.2 ∈ r.events ∨ BuildEvent.sourceMissing q.1 q.2 ∈ r.events) := by
  have h := C2_build_partial_failure
    ⟨["nav", "vision"],
     [("nav", ["lidar_node", "imu_node"]), ("vision", ["cam_node"])],
     [("nav", "lidar_node"), ("vision", "cam_node")]⟩
    ("nav", "imu_node") (by decide) (by decide) (by decide) (by decide) (by decide)
  simpa using h

/-- C10: a workspace with a non-empty project list in which every registered
project's manifest exists and declares an empty executables list builds with
`overall_success = true`: zero nodes compiled is a success outcome for the
build command. -/
theorem C10_build_success_with_no_nodes (ws : Workspace)
    (hne : ws.projects ≠ [])
    (hall : ∀ p ∈ ws.projects, List.lookup p ws.manifests = some []) :
    ∃ r : BuildReport, build_projects ws = some r ∧ r.overallSuccess = true := by
  rcases hE : buildAll ws ws.projects with ⟨evs, ok, bs, ins⟩
  refine ⟨⟨evs, ok, bs, ins⟩, by simp [build_projects, hne, hE], ?_⟩
  have hman : ∀ p ∈ ws.projects, (List.lookup p ws.manifests).isSome = true := by
    intro p hp
    rw [hall p hp]
    rfl
  have hflag := buildAll_flag ws ws.projects hman
  rw [hE] at hflag
  simp only at hflag
  rw [nodesOfProjects_nil_of_empty ws ws.projects hall] at hflag
  simpa using hflag

/-- Witness for C10: one project `empty_pkg` with a manifest declaring no
executables. -/
theorem C10_build_success_with_no_nodes_witness :
    ∃ r : BuildReport,
      build_projects ⟨["empty_pkg"], [("empty_pkg", [])], []⟩ = some r
      ∧ r.overallSuccess = true :=
  C10_build_success_with_no_nodes ⟨["empty_pkg"], [("empty_pkg", [])], []⟩
    (by decide) (by decide)

/-- An entry that is malformed, or whose executable is not installed, never
contributes to `launched_nodes`. -/
theorem launchEntry_none (installed : List String) (e : LaunchEntry)
    (h : mandatoryFieldsOk e = false ∨ e.executable.getD "" ∉ installed) :
    (launchEntry installed e).2 = none := by
  rcases h with h | h
  · simp [launchEntry, h]
  · by_cases hm : mandatoryFieldsOk e <;> simp [launchEntry, hm, h]

/-- A run all of whose entries contribute nothing launches nothing. -/
theorem launchAll_none (installed : List String) :
    ∀ es : List LaunchEntry, (∀ e ∈ es, (launchEntry installed e).2 = none) →
      (launchAll installed es).2 = [] := by
  intro es
  induction es with
  | nil => intro _; rfl
  | cons e es ih =>
    intro h
    have h1 := h e (List.mem_cons_self e es)
    have h2 := ih fun e' he' => h e' (List.mem_cons_of_mem e he')
    rcases hL : launchAll installed es with ⟨evs, ls⟩
    rw [hL] at h2
    simp only at h2
    simp [launchAll, h1, hL, h2]

/-- C4: for every non-empty entry list the launch operation reports, the
outcome is `success` exactly when at least one node was actually launched;
and a run in which every entry is malformed or references an uninstalled
executable ends in the distinct `nothingLaunched` failure outcome with zero
launched nodes. -/
theorem C4_launch_success_iff_launched (installed : List String)
    (entries : List LaunchEntry) (hne : entries ≠ []) :
    ∃ evs ls oc, launch_nodes installed entries = some (evs, ls, oc)
      ∧ (oc = LaunchOutcome.success ↔ ls ≠ [])
      ∧ ((∀ e ∈ entries, mandatoryFieldsOk e = false ∨ e.executable.getD "" ∉ installed) →
          oc = LaunchOutcome.nothingLaunched ∧ ls = []) := by
  rcases hL : launchAll installed entries with ⟨evs, ls⟩
  refine ⟨evs, ls, if ls = [] then .nothingLaunched else .success, ?_, ?_, ?_⟩
  · simp [launch_nodes, hne, hL]
  · by_cases h : ls = [] <;> simp [h]
  · intro hall
    have hnil : ls = [] := by
      have := launchAll_none installed entries
        fun e he => launchEntry_none installed e (hall e he)
      rw [hL] at this
      exact this
    simp [hnil]

/-- Witness for C4: a single entry missing its `from` key, nothing installed:
the run reports `nothingLaunched` with zero launched nodes, and success is
equivalent to (here, falsified by) a non-empty launched list. -/
theorem C4_launch_success_iff_launched_witness :
    ∃ evs ls oc,
      launch_nodes [] [⟨some "lidar", none, some "lidar_node", []⟩] = some (evs, ls, oc)
      ∧ (oc = LaunchOutcome.success ↔ ls ≠ [])
      ∧ (oc = LaunchOutcome.nothingLaunched ∧ ls = []) := by
  obtain ⟨evs, ls, oc, h1, h2, h3⟩ :=
    C4_launch_success_iff_launched [] [⟨some "lidar", none, some "lidar_node", []⟩]
      (by decide)
  exact ⟨evs, ls, oc, h1, h2, h3 (by decide)⟩

/-- C5: an entry missing any of the three mandatory fields is logged as
malformed and skipped, and this is not fatal: the run on the remaining
entries is exactly the run that would have happened without the malformed
entry, so every subsequent entry is still processed in order. -/
theorem C5_malformed_entry_skipped (installed : List String) (e : LaunchEntry)
    (rest : List LaunchEntry) (hbad : mandatoryFieldsOk e = false) :
    launchAll installed (e :: rest)
      = (LaunchEvent.malformedEntry :: (launchAll installed rest).1,
         (launchAll installed rest).2) := by
  rcases hL : launchAll installed rest with ⟨evs, ls⟩
  simp [launchAll, launchEntry, hbad, hL]

/-- Witness for C5: an entry with an empty alias (Python-falsy) before a
well-formed entry whose executable is installed; the malformed entry is
skipped and the later entry still launches. -/
theorem C5_malformed_entry_skipped_witness :
    launchAll ["cam_node"]
        [⟨some "", some "nav", some "lidar_node", []⟩,
         ⟨some "cam", some "vision", some "cam_node", []⟩]
      = (LaunchEvent.malformedEntry
           :: (launchAll ["cam_node"] [⟨some "cam", some "vision", some "cam_node", []⟩]).1,
         (launchAll ["cam_node"] [⟨some "cam", some "vision", some "cam_node", []⟩]).2) :=
  C5_malformed_entry_skipped ["cam_node"] ⟨some "", some "nav", some "lidar_node", []⟩
    [⟨some "cam", some "vision", some "cam_node", []⟩] (by decide)

/-- C6: an entry whose three mandatory fields are present but whose
executable has no file under `install/` is logged with an
artifact-not-found error and skipped, and the run on the remaining entries
is unchanged: the failure does not prevent subsequent entries from
launching. -/
theorem C6_artifact_not_found_nonfatal (installed : List String) (e : LaunchEntry)
    (rest : List LaunchEntry) (hok : mandatoryFieldsOk e = true)
    (hmiss : e.executable.getD "" ∉ installed) :
    launchAll installed (e :: rest)
      = (LaunchEvent.artifactNotFound (e.executable.getD "")
           :: (launchAll installed rest).1,
         (launchAll installed rest).2) := by
  rcases hL : launchAll installed rest with ⟨evs, ls⟩
  simp [launchAll, launchEntry, hok, hmiss, hL]

/-- Witness for C6: `lidar_node` was never installed, the following entry's
`cam_node` was; the first entry logs artifact-not-found and the second still
launches. -/
theorem C6_artifact_not_found_nonfatal_witness :
    launchAll ["cam_node"]
        [⟨some "lidar", some "nav", some "lidar_node", []⟩,
         ⟨some "cam", some "vision", some "cam_node", []⟩]
      = (LaunchEvent.artifactNotFound "lidar_node"
           :: (launchAll ["cam_node"] [⟨some "cam", some "vision", some "cam_node", []⟩]).1,
         (launchAll ["cam_node"] [⟨some "cam", some "vision", some "cam_node", []⟩]).2) :=
  C6_artifact_not_found_nonfatal ["cam_node"] ⟨some "lidar", some "nav", some "lidar_node", []⟩
    [⟨some "cam", some "vision", some "cam_node", []⟩] (by decide) (by decide)

/-- C7 counterexample: `create_workspace` changes the working directory into
the newly created workspace (line 69) in order to create its structure
relative to the workspace root, and its `finally` block (lines 96–97) is
`pass`: on the success path the caller observes a working directory different
from the one before the call, refuting the claim for this operation. -/
theorem C7_counterexample :
    (create_workspace ["home"] [] "rover_ws").2 = true
    ∧ (create_workspace ["home"] [] "rover_ws").1.1 ≠ ["home"] := by
  constructor
  · rfl
  · decide

/-- C7 amended: `create_project`, `build_projects` and `launch_nodes` each
save the working directory, `chdir` to the workspace root, and restore the
saved directory in a `finally` block, so on every exit path the model covers
— normal completion and every per-item-failure branch of the body — the
caller observes the working directory unchanged; `create_workspace`, by
contrast, leaves the process inside the new workspace directory on success
(its `finally` block restores nothing). -/
theorem C7_cwd_restored_amended :
    (∀ (wsRoot cwd : DirPath) (s : WsState) (name : String),
        (create_project_cwd wsRoot cwd s name).1 = cwd)
    ∧ (∀ (wsRoot cwd : DirPath) (ws : Workspace),
        (build_projects_cwd wsRoot cwd ws).1 = cwd)
    ∧ (∀ (wsRoot cwd : DirPath) (installed : List String) (entries : List LaunchEntry),
        (launch_nodes_cwd wsRoot cwd installed entries).1 = cwd)
    ∧ (∀ (cwd : DirPath) (dirs : List DirPath) (name : String),
        (name :: cwd) ∉ dirs → (create_workspace cwd dirs name).1.1 = name :: cwd) := by
  refine ⟨?_, fun _ _ _ => rfl, fun _ _ _ _ => rfl, ?_⟩
  · intro wsRoot cwd s name
    rcases h : create_project s name with ⟨s2, out⟩
    simp [create_project_cwd, osChdir, h]
  · intro cwd dirs name h
    simp [create_workspace, osChdir, h]

/-- Witness for the amended C7, discharging the directory-absence hypothesis
of the `create_workspace` conjunct at a concrete state. -/
theorem C7_cwd_restored_amended_witness :
    (create_project_cwd ["rover_ws"] ["home"] ⟨[], []⟩ "nav").1 = ["home"]
    ∧ (build_projects_cwd ["rover_ws"] ["home"] ⟨[], [], []⟩).1 = ["home"]
    ∧ (launch_nodes_cwd ["rover_ws"] ["home"] [] []).1 = ["home"]
    ∧ (create_workspace ["home"] [] "rover_ws").1.1 = "rover_ws" :: ["home"] :=
  ⟨C7_cwd_restored_amended.1 ["rover_ws"] ["home"] ⟨[], []⟩ "nav",
   C7_cwd_restored_amended.2.1 ["rover_ws"] ["home"] ⟨[], [], []⟩,
   C7_cwd_restored_amended.2.2.1 ["rover_ws"] ["home"] [] [],
   C7_cwd_restored_amended.2.2.2 ["home"] [] "rover_ws" (by decide)⟩

/-- C9 counterexample: the workspace-manifest write is an in-place rewrite
through the same `r+` handle (`seek(0)`, `yaml.dump`, `truncate()`,
lines 151–157), not a write-then-replace: when the new document is shorter
than the old, the state visible between the dump and the truncate — the new
content followed by the residual tail of the old — is neither the complete
old document nor the complete new one. -/
theorem C9_counterexample :
    ¬ atomicObservable
        (inPlaceRewriteStates
          ['p', 'r', 'o', 'j', 'e', 'c', 't', 's', ':', ' ', '[', 'n', 'a', 'v', ']']
          ['p', 'r', 'o', 'j', 'e', 'c', 't', 's', ':', ' ', '[', ']'])
        ['p', 'r', 'o', 'j', 'e', 'c', 't', 's', ':', ' ', '[', 'n', 'a', 'v', ']']
        ['p', 'r', 'o', 'j', 'e', 'c', 't', 's', ':', ' ', '[', ']'] := by
  unfold atomicObservable inPlaceRewriteStates
  decide

/-- C9 amended: the manifest write is an in-place overwrite whose final state
is the new document, but whose intermediate state — the new document followed
by whatever of the old document lies beyond its length — is observable; the
write-then-replace discipline the specification describes would be atomic,
but it is not what the code does. -/
theorem C9_manifest_write_amended (old new : List Char) :
    (inPlaceRewriteStates old new).getLast? = some new
    ∧ (new ++ old.drop new.length) ∈ inPlaceRewriteStates old new
    ∧ atomicObservable (writeThenReplaceStates old new) old new := by
  refine ⟨rfl, ?_, ?_⟩
  · simp [inPlaceRewriteStates]
  · intro s hs
    simp only [writeThenReplaceStates, List.mem_cons, List.mem_singleton] at hs
    tauto
